import Mathlib

/-!
Shallow embedding of `flask_loopback/flask_loopback.py` (the Flask-Loopback
core): request/response translation, the intercept chain of
`FlaskLoopback.handle_request`, the `_IOReader` body stream, and the
activation/deactivation state machine (`activate_address`,
`deactivate_address`, `deactivate_all`, `on`).

Bytes are modelled as `List Nat`, Python strings as Lean `String`.
Exceptions are modelled explicitly: stateful operations return a pair of the
mutated state and an optional raised exception (Python exceptions do not roll
state back), and `handle_request` returns `Except`.
-/

namespace FlaskLoopback

/-! ### Python string splitting and URL pieces

`handle_request` computes `path = "/{0}".format(url.split("/", 3)[-1])`.
`url` is a string (a `URLObject`, which subclasses `str`), so `split` is
Python's `str.split` with a maxsplit of 3. We model it on `List Char`.
-/

/-- Split off the part of `s` before the first occurrence of `sep`,
returning `none` when `sep` does not occur. -/
def splitFirst (sep : Char) : List Char → Option (List Char × List Char)
  | [] => none
  | c :: rest =>
    if c = sep then some ([], rest)
    else
      match splitFirst sep rest with
      | none => none
      | some (before, after) => some (c :: before, after)

/-- Python `s.split(sep, maxsplit)` on a list of characters: split at the
first `maxsplit` occurrences of `sep`; the remainder is kept whole. -/
def pySplit (sep : Char) : Nat → List Char → List (List Char)
  | 0, s => [s]
  | m + 1, s =>
    match splitFirst sep s with
    | none => [s]
    | some (before, after) => before :: pySplit sep m after

/-- The application-relative path built by `handle_request`:
`path = "/{0}".format(url.split("/", 3)[-1])`. -/
def derivePath (url : String) : String :=
  String.mk ('/' :: (pySplit '/' 3 url.toList).getLastD [])

/-- Modelled from the spec: the parsed target URL is supplied by an external
collaborator (spec §1 names URL parsing among the out-of-scope helpers); its
`scheme` attribute is the text before the first `:` (empty when there is no
colon). `handle_request` only tests it for truthiness (`assert url.scheme`). -/
def urlScheme (u : String) : String :=
  match splitFirst ':' u.toList with
  | none => ""
  | some (before, _) => String.mk before

/-- Modelled from the spec: the URL object's `netloc` attribute — the text
between the leading `scheme://` and the next `/` (used only to build
`base_url = "{0.scheme}://{0.netloc}"`). -/
def urlNetloc (u : String) : String :=
  match splitFirst ':' u.toList with
  | none => ""
  | some (_, after) =>
    match after with
    | '/' :: '/' :: rest =>
      match splitFirst '/' rest with
      | none => String.mk rest
      | some (before, _) => String.mk before
    | _ => ""

/-! ### `_IOReader`

A `six.BytesIO` subclass.  `BytesIO.read` raises `ValueError` once the
stream is closed; `_IOReader.read` guards on `closed` and returns `b''`
instead, and closes the stream itself whenever a read comes back empty.
-/

/-- The state of a `BytesIO` buffer: its contents, the read position, and
the closed flag. -/
structure IOReader where
  data : List Nat
  pos : Nat
  closed : Bool
deriving Repr, DecidableEq

/-- `_IOReader(data)`: a fresh open buffer positioned at 0. -/
def mkIOReader (data : List Nat) : IOReader :=
  { data := data, pos := 0, closed := false }

/-- The bytes a `BytesIO.read(size)` call returns: all remaining bytes from
the current position when `size` is absent/None, else the next `size` of
them. -/
def bytesOut (r : IOReader) (size : Option Nat) : List Nat :=
  match size with
  | none => r.data.drop r.pos
  | some k => (r.data.drop r.pos).take k

/-- The underlying `six.BytesIO.read(size)`: raises `ValueError` (modelled
as `Except.error ()`) when the buffer is closed, otherwise returns
`bytesOut` and advances the position past it. -/
def bytesIORead (r : IOReader) (size : Option Nat) : Except Unit (List Nat × IOReader) :=
  if r.closed then .error ()
  else .ok (bytesOut r size, { r with pos := r.pos + (bytesOut r size).length })

/-- `_IOReader.read`: return `b''` if already closed; otherwise delegate to
`BytesIO.read` and, when the result is empty, mark the stream closed
(see gh124: urllib3 checks the closed flag instead of the return value). -/
def ioReaderRead (r : IOReader) (size : Option Nat) : Except Unit (List Nat × IOReader) :=
  if r.closed then .ok ([], r)
  else
    match bytesIORead r size with
    | .error e => .error e
    | .ok (result, r') =>
      if result = [] then .ok (result, { r' with closed := true })
      else .ok (result, r')

/-! ### The standard code → reason-phrase table

`httplib.responses` is the Python standard library's status-code table
(`http.client.responses`), reached through the `_compat` shim; the code looks
reasons up with `httplib.responses.get(code, None)`. -/

/-- `httplib.responses.get code None`: the standard library's
code-to-reason-phrase table, `none` for unknown codes. -/
def httplibResponses (code : Nat) : Option String :=
  match code with
  | 100 => some "Continue"
  | 101 => some "Switching Protocols"
  | 102 => some "Processing"
  | 103 => some "Early Hints"
  | 200 => some "OK"
  | 201 => some "Created"
  | 202 => some "Accepted"
  | 203 => some "Non-Authoritative Information"
  | 204 => some "No Content"
  | 205 => some "Reset Content"
  | 206 => some "Partial Content"
  | 207 => some "Multi-Status"
  | 208 => some "Already Reported"
  | 226 => some "IM Used"
  | 300 => some "Multiple Choices"
  | 301 => some "Moved Permanently"
  | 302 => some "Found"
  | 303 => some "See Other"
  | 304 => some "Not Modified"
  | 305 => some "Use Proxy"
  | 307 => some "Temporary Redirect"
  | 308 => some "Permanent Redirect"
  | 400 => some "Bad Request"
  | 401 => some "Unauthorized"
  | 402 => some "Payment Required"
  | 403 => some "Forbidden"
  | 404 => some "Not Found"
  | 405 => some "Method Not Allowed"
  | 406 => some "Not Acceptable"
  | 407 => some "Proxy Authentication Required"
  | 408 => some "Request Timeout"
  | 409 => some "Conflict"
  | 410 => some "Gone"
  | 411 => some "Length Required"
  | 412 => some "Precondition Failed"
  | 413 => some "Payload Too Large"
  | 414 => some "URI Too Long"
  | 415 => some "Unsupported Media Type"
  | 416 => some "Range Not Satisfiable"
  | 417 => some "Expectation Failed"
  | 418 => some "I\x27m a Teapot"
  | 421 => some "Misdirected Request"
  | 422 => some "Unprocessable Entity"
  | 423 => some "Locked"
  | 424 => some "Failed Dependency"
  | 425 => some "Too Early"
  | 426 => some "Upgrade Required"
  | 428 => some "Precondition Required"
  | 429 => some "Too Many Requests"
  | 431 => some "Request Header Fields Too Large"
  | 451 => some "Unavailable For Legal Reasons"
  | 500 => some "Internal Server Error"
  | 501 => some "Not Implemented"
  | 502 => some "Bad Gateway"
  | 503 => some "Service Unavailable"
  | 504 => some "Gateway Timeout"
  | 505 => some "HTTP Version Not Supported"
  | 506 => some "Variant Also Negotiates"
  | 507 => some "Insufficient Storage"
  | 508 => some "Loop Detected"
  | 510 => some "Not Extended"
  | 511 => some "Network Authentication Required"
  | _ => none

/-! ### Requests, application responses and their translation -/

/-- The outgoing request handed to `handle_request` (a `PendingRequest`):
its target URL as the original string, method, header pairs in iteration
order, and a body already materialized to bytes (the code fully reads a
stream body before dispatch; stream reading belongs to the collaborator). -/
structure Request where
  url : String
  method : String
  headers : List (String × String)
  body : List Nat
deriving Repr, DecidableEq

/-- The application collaborator's response (`self._test_client.open(...)`
result): status code, headers, and `get_data()` bytes. -/
structure AppResponse where
  status_code : Nat
  headers : List (String × String)
  body : List Nat
deriving Repr, DecidableEq

/-- A `requests.Response` as `handle_request` populates it.  A freshly
constructed `requests.Response()` has `url`/`request`/`raw` unset (`None`),
modelled with `Option`. -/
structure TranslatedResponse where
  url : Option String
  status_code : Nat
  reason : Option String
  request : Option Request
  content : List Nat
  headers : List (String × String)
  raw : Option IOReader
deriving Repr, DecidableEq

/-- Werkzeug's `resp.headers.get(name)`: case-insensitive lookup of the
first header with the given name. -/
def headersGet (hs : List (String × String)) (name : String) : Option String :=
  match hs with
  | [] => none
  | (k, v) :: rest =>
    if k.toLower = name.toLower then some v else headersGet rest name

/-- The response built by `CustomHTTPResponse.__init__`: a fresh
`requests.Response` with the URL and request echoed back, the carried status
code, and the reason looked up in the standard table.  Its `content` and
`raw` are never populated. -/
def customResponse (req : Request) (code : Nat) : TranslatedResponse :=
  { url := some req.url
    status_code := code
    reason := httplibResponses code
    request := some req
    content := []
    headers := []
    raw := none }

/-- The response-translation tail of `handle_request` (lines building
`returned` from `resp`): copy status/reason/url/request, gunzip the body
when the application declared `content-encoding: gzip` (`gunzip` is the
external `gzip_decompress` helper), copy headers, and wrap the body bytes in
an `_IOReader` for `raw`. -/
def translateResponse (gunzip : List Nat → List Nat) (req : Request)
    (resp : AppResponse) : TranslatedResponse :=
  let resp_data :=
    if headersGet resp.headers "content-encoding" = some "gzip" then gunzip resp.body
    else resp.body
  { url := some req.url
    status_code := resp.status_code
    reason := httplibResponses resp.status_code
    request := some req
    content := resp_data
    headers := resp.headers
    raw := some (mkIOReader resp_data) }

/-! ### The intercept chain and `handle_request`

Each registered request-context handler, called on the request, yields a
context manager that is entered on the `ExitStack`; entering it either
succeeds or raises `CustomHTTPResponse(request, code)`.  The `ExitStack`
exits every successfully entered scope in reverse order on all paths. -/

/-- What a registered request-context handler does for this request:
enter a scope normally, or raise `CustomHTTPResponse` carrying `code`. -/
inductive HandlerSpec
  | scope
  | custom (code : Nat)
deriving Repr, DecidableEq

/-- What the application collaborator (`self._test_client.open`) does when
invoked: return a response, or raise an exception (identified by a token). -/
inductive AppOutcome
  | success (resp : AppResponse)
  | failure (e : Nat)
deriving Repr, DecidableEq

/-- The invocation descriptor passed to `self._test_client.open`:
the derived path plus `open_kwargs`. -/
structure AppCall where
  path : String
  method : String
  headers : List (String × String)
  data : List Nat
  remote_addr : String
  base_url : String
deriving Repr, DecidableEq

/-- Build the application call exactly as `handle_request` does: derived
path, upper-cased method, headers in order, body bytes, the cached local
hostname as `REMOTE_ADDR`, and `base_url = "{0.scheme}://{0.netloc}"`. -/
def buildAppCall (hostname : String) (req : Request) : AppCall :=
  { path := derivePath req.url
    method := req.method.toUpper
    headers := req.headers
    data := req.body
    remote_addr := hostname
    base_url := urlScheme req.url ++ "://" ++ urlNetloc req.url }

/-- Observable events of one dispatch: a handler's scope is entered, a
handler's scope is exited, the application collaborator is invoked. -/
inductive Event
  | enter (idx : Nat)
  | exitScope (idx : Nat)
  | invokeApp (call : AppCall)
deriving Repr, DecidableEq

/-- Exceptions `handle_request` can let escape: the `assert url.scheme`
failure, or whatever the application collaborator raised.
(`CustomHTTPResponse` is caught inside and so has no constructor here.) -/
inductive PyExn
  | assertionError
  | appExn (e : Nat)
deriving Repr, DecidableEq

/-- The `for handler in self._request_context_handlers` loop: enter each
handler's scope in order starting at index `idx`; stop at the first
`CustomHTTPResponse`.  Returns the enter events, the indices entered in
entry order, and the carried code if one was raised (the raising handler's
scope is not recorded on the stack: `enter_context` registers the exit
callback only after a successful `__enter__`). -/
def enterHandlers : List HandlerSpec → Nat → List Event × List Nat × Option Nat
  | [], _ => ([], [], none)
  | .scope :: rest, idx =>
    let (evs, entered, interrupted) := enterHandlers rest (idx + 1)
    (.enter idx :: evs, idx :: entered, interrupted)
  | .custom code :: _, _ => ([], [], some code)

/-- The `ExitStack` unwind: exit every entered scope in reverse order. -/
def exitEvents (entered : List Nat) : List Event :=
  entered.reverse.map Event.exitScope

/-- `FlaskLoopback.handle_request(session, url, request)`:
assert the URL has a scheme; build the path and `open_kwargs`; inside an
`ExitStack`, enter the request-context handlers in order, returning the
pre-built response if one raises `CustomHTTPResponse`; otherwise invoke the
application collaborator and translate its response (or let its exception
propagate).  Returns the event trace of the dispatch together with its
result.  Cookie extraction mutates only the jars and is elided. -/
def handle_request (handlers : List HandlerSpec) (app : AppOutcome)
    (gunzip : List Nat → List Nat) (hostname : String) (req : Request) :
    List Event × Except PyExn TranslatedResponse :=
  if urlScheme req.url = "" then ([], .error .assertionError)
  else
    let call := buildAppCall hostname req
    let (enters, entered, interrupted) := enterHandlers handlers 0
    match interrupted with
    | some code => (enters ++ exitEvents entered, .ok (customResponse req code))
    | none =>
      match app with
      | .failure e => (enters ++ [.invokeApp call] ++ exitEvents entered, .error (.appExn e))
      | .success resp =>
        (enters ++ [.invokeApp call] ++ exitEvents entered,
         .ok (translateResponse gunzip req resp))

/-! ### Address activation and the global registry

`activate_address` / `deactivate_address` / `deactivate_all` / `on` from the
source, together with the `dispatch` module's global registry (that module is
not part of the translated sources, so it is modelled from the spec, §4.1).

The system state holds the global address→handler registry and one
`FlaskLoopback` instance's `_registered_addresses` Python set, modelled as a
duplicate-free list (`selfAddresses`).  Stateful operations return the
mutated state and an optional raised exception; Python exceptions leave the
mutations made so far in place. -/

/-- A well-formed `(host, port)` address tuple. -/
structure Address where
  host : String
  port : Nat
deriving Repr, DecidableEq

/-- Exceptions of the activation surface: `NotRegistered` from the dispatch
registry, `KeyError` from `set.remove`, or an arbitrary exception raised by
code running inside an `on` scope. -/
inductive PyErr
  | notRegistered
  | keyError
  | userExn (e : Nat)
deriving Repr, DecidableEq

/-- The global registry (`dispatch`'s address→handler table) paired with one
handler instance: its identity and its `_registered_addresses` set. -/
structure LoopbackSystem where
  registry : Address → Option (Nat × Bool)
  selfId : Nat
  selfAddresses : List Address

/-- Modelled from the spec: `dispatch.register_loopback_handler(address,
handler, ssl)` — registers `address → handler` globally (spec §4.1;
activating an already-active address overwrites, spec §3). -/
def register_loopback_handler (reg : Address → Option (Nat × Bool))
    (addr : Address) (handlerId : Nat) (ssl : Bool) : Address → Option (Nat × Bool) :=
  fun a => if a = addr then some (handlerId, ssl) else reg a

/-- Modelled from the spec: `dispatch.unregister_loopback_handler(address)`
— removes the global registration, failing with `NotRegistered` when the
address is not currently registered (spec §4.1 `deactivate`). -/
def unregister_loopback_handler (reg : Address → Option (Nat × Bool))
    (addr : Address) : Except PyErr (Address → Option (Nat × Bool)) :=
  match reg addr with
  | none => .error .notRegistered
  | some _ => .ok (fun a => if a = addr then none else reg a)

/-- `FlaskLoopback.activate_address(address, ssl)`: register the address
globally to this handler and add it to `self._registered_addresses`
(Python set add: no effect when already present).  The tuple-shape assert
always passes here because `Address` is well-formed by construction. -/
def activate_address (s : LoopbackSystem) (addr : Address) (ssl : Bool) : LoopbackSystem :=
  { s with
    registry := register_loopback_handler s.registry addr s.selfId ssl
    selfAddresses :=
      if addr ∈ s.selfAddresses then s.selfAddresses else addr :: s.selfAddresses }

/-- `FlaskLoopback.deactivate_address(address)`: unregister globally, then
`self._registered_addresses.remove(address)` — Python `set.remove` raises
`KeyError` when the element is absent.  Either step's exception propagates,
keeping the mutations already made. -/
def deactivate_address (s : LoopbackSystem) (addr : Address) :
    LoopbackSystem × Option PyErr :=
  match unregister_loopback_handler s.registry addr with
  | .error e => (s, some e)
  | .ok reg' =>
    let s' := { s with registry := reg' }
    if addr ∈ s'.selfAddresses then
      ({ s' with selfAddresses := s'.selfAddresses.erase addr }, none)
    else (s', some .keyError)

/-- The body of `deactivate_all`'s `while self._registered_addresses:` loop,
unrolled over the set's elements: each iteration deactivates
`next(iter(self._registered_addresses))` — the head of the list model — and
deactivating the head leaves exactly the tail, so the remaining iterations
process `rest`.  An exception aborts the loop. -/
def deactivate_all_loop (s : LoopbackSystem) :
    List Address → LoopbackSystem × Option PyErr
  | [] => (s, none)
  | addr :: rest =>
    match deactivate_address s addr with
    | (s', none) => deactivate_all_loop s' rest
    | (s', some e) => (s', some e)

/-- `FlaskLoopback.deactivate_all()`: deactivate addresses from
`self._registered_addresses` until it is empty. -/
def deactivate_all (s : LoopbackSystem) : LoopbackSystem × Option PyErr :=
  deactivate_all_loop s s.selfAddresses

/-- `FlaskLoopback.on(address, ssl)` (`@contextmanager`):
`activate_address`; run the scope body (which may mutate the system state
and may raise); in the `finally`, `deactivate_address`.  An exception from
the `finally` supersedes the body's exception, as in Python. -/
def onScope (s : LoopbackSystem) (addr : Address) (ssl : Bool)
    (body : LoopbackSystem → LoopbackSystem × Option PyErr) :
    LoopbackSystem × Option PyErr :=
  let s₁ := activate_address s addr ssl
  let (s₂, bodyErr) := body s₁
  let (s₃, deactErr) := deactivate_address s₂ addr
  match deactErr with
  | some e => (s₃, some e)
  | none => (s₃, bodyErr)

/-! ### Concrete states used by the witnesses -/

/-- A system with an empty registry and no active addresses. -/
def emptySystem : LoopbackSystem :=
  { registry := fun _ => none, selfId := 0, selfAddresses := [] }

/-- A sample well-formed `(host, port)` address. -/
def someAddress : Address := ⟨"localhost", 8080⟩

end FlaskLoopback

namespace FlaskLoopback

/-! ## Helper lemmas -/

theorem splitFirst_of_not_mem {sep : Char} {a : List Char} (b : List Char)
    (h : sep ∉ a) : splitFirst sep (a ++ sep :: b) = some (a, b) := by
  induction a with
  | nil => simp [splitFirst]
  | cons c rest ih =>
    have hc : c ≠ sep := fun hceq => h (hceq ▸ List.mem_cons_self c rest)
    have hrest : sep ∉ rest := fun hm => h (List.mem_cons_of_mem c hm)
    simp [splitFirst, hc, ih hrest]

theorem toList_mk (l : List Char) : (String.mk l).toList = l := rfl

theorem pySplit_cons (sep : Char) (m : Nat) {a : List Char} (b : List Char)
    (h : sep ∉ a) : pySplit sep (m + 1) (a ++ sep :: b) = a :: pySplit sep m b := by
  show (match splitFirst sep (a ++ sep :: b) with
        | none => [a ++ sep :: b]
        | some (before, after) => before :: pySplit sep m after) = a :: pySplit sep m b
  rw [splitFirst_of_not_mem _ h]

/-! ## C1: the application-relative path -/

/-- C1 (counterexample): for the target URL
`http://example.com/api/widgets?x=1` the path built by `handle_request` is
NOT `/widgets?x=1`. -/
theorem c1_counterexample :
    derivePath "http://example.com/api/widgets?x=1" ≠ "/widgets?x=1" := by
  decide

/-- C1 (amended): for a URL of shape `s₁/s₂/s₃/rest` with `s₁ s₂ s₃` free of
`/`, the application-relative path built by `handle_request` is `/` prefixed
to everything after the FIRST THREE `/`-delimited segments, i.e. `"/" ++
rest`; in particular for `http://example.com/api/widgets?x=1` it is
`/api/widgets?x=1`, not `/widgets?x=1`. -/
theorem c1_path_after_first_three_segments (s₁ s₂ s₃ rest : List Char)
    (h₁ : '/' ∉ s₁) (h₂ : '/' ∉ s₂) (h₃ : '/' ∉ s₃) :
    derivePath (String.mk (s₁ ++ '/' :: (s₂ ++ '/' :: (s₃ ++ '/' :: rest)))) =
      String.mk ('/' :: rest) := by
  unfold derivePath
  rw [toList_mk]
  rw [show (3 : Nat) = 2 + 1 from rfl, pySplit_cons _ _ _ h₁]
  rw [show (2 : Nat) = 1 + 1 from rfl, pySplit_cons _ _ _ h₂]
  rw [show (1 : Nat) = 0 + 1 from rfl, pySplit_cons _ _ _ h₃]
  simp [pySplit, List.getLastD]

/-- C1 witness: the amended claim evaluated on the spec's own example URL. -/
theorem c1_witness :
    ('/' ∉ "http:".toList ∧ '/' ∉ ([] : List Char) ∧ '/' ∉ "example.com".toList) ∧
      derivePath "http://example.com/api/widgets?x=1" = "/api/widgets?x=1" := by
  refine ⟨⟨by decide, by decide, by decide⟩, ?_⟩
  have h := c1_path_after_first_three_segments "http:".toList [] "example.com".toList
    "api/widgets?x=1".toList (by decide) (by decide) (by decide)
  have hurl : String.mk ("http:".toList ++ '/' :: ([] ++ '/' :: ("example.com".toList ++
      '/' :: "api/widgets?x=1".toList))) = "http://example.com/api/widgets?x=1" := by decide
  have hres : String.mk ('/' :: "api/widgets?x=1".toList) = "/api/widgets?x=1" := by decide
  rw [hurl, hres] at h
  exact h

/-! ## Intercept-chain lemmas -/

theorem enterHandlers_interrupted :
    ∀ (k : Nat) (hs : List HandlerSpec) (idx code : Nat),
      hs[k]? = some (.custom code) → (∀ j < k, hs[j]? = some .scope) →
      (enterHandlers hs idx).2.2 = some code := by
  intro k
  induction k with
  | zero =>
    intro hs idx code hk _
    match hs with
    | [] => simp at hk
    | h :: t =>
      simp only [List.getElem?_cons_zero, Option.some.injEq] at hk
      subst hk
      simp [enterHandlers]
  | succ k ih =>
    intro hs idx code hk hbefore
    match hs with
    | [] => simp at hk
    | h :: t =>
      have h0 : h = .scope := by
        have := hbefore 0 (Nat.succ_pos k)
        simpa using this
      subst h0
      simp only [enterHandlers]
      exact ih t (idx + 1) code (by simpa using hk)
        (fun j hj => by simpa using hbefore (j + 1) (Nat.succ_lt_succ hj))

theorem enterHandlers_no_invoke (hs : List HandlerSpec) (idx : Nat) (call : AppCall) :
    Event.invokeApp call ∉ (enterHandlers hs idx).1 := by
  induction hs generalizing idx with
  | nil => simp [enterHandlers]
  | cons h t ih =>
    cases h with
    | scope => simp [enterHandlers, ih (idx + 1)]
    | custom code => simp [enterHandlers]

theorem exitEvents_no_invoke (entered : List Nat) (call : AppCall) :
    Event.invokeApp call ∉ exitEvents entered := by
  simp [exitEvents]

theorem enterHandlers_fst (hs : List HandlerSpec) (idx : Nat) :
    (enterHandlers hs idx).1 = (enterHandlers hs idx).2.1.map Event.enter := by
  induction hs generalizing idx with
  | nil => simp [enterHandlers]
  | cons h t ih =>
    cases h with
    | scope => simp [enterHandlers, ih (idx + 1)]
    | custom code => simp [enterHandlers]

theorem enterHandlers_entered_range (hs : List HandlerSpec) (idx : Nat) :
    ∃ m, (enterHandlers hs idx).2.1 = List.range' idx m := by
  induction hs generalizing idx with
  | nil => exact ⟨0, by simp [enterHandlers]⟩
  | cons h t ih =>
    cases h with
    | scope =>
      obtain ⟨m, hm⟩ := ih (idx + 1)
      exact ⟨m + 1, by simp [enterHandlers, hm, List.range'_succ]⟩
    | custom code => exact ⟨0, by simp [enterHandlers]⟩

theorem enterHandlers_entered_nodup (hs : List HandlerSpec) (idx : Nat) :
    (enterHandlers hs idx).2.1.Nodup := by
  obtain ⟨m, hm⟩ := enterHandlers_entered_range hs idx
  rw [hm]
  exact List.nodup_range' idx m

/-! ## C2: `CustomHTTPResponse` short-circuits dispatch -/

/-- C2: when the first intercept handler that does not enter cleanly raises
`CustomHTTPResponse` carrying `code`, `handle_request` returns normally (the
signal never propagates out) with that condition's pre-built response —
`status_code = code`, `reason` the standard-table lookup for `code` (`none`
if absent), URL and original request echoed back — and the application
collaborator is never invoked. -/
theorem c2_custom_response_short_circuit (handlers : List HandlerSpec)
    (app : AppOutcome) (gunzip : List Nat → List Nat) (hostname : String)
    (req : Request) (k code : Nat)
    (hscheme : urlScheme req.url ≠ "")
    (hk : handlers[k]? = some (.custom code))
    (hbefore : ∀ j < k, handlers[j]? = some .scope) :
    (handle_request handlers app gunzip hostname req).2 = .ok (customResponse req code) ∧
      (customResponse req code).status_code = code ∧
      (customResponse req code).reason = httplibResponses code ∧
      (customResponse req code).url = some req.url ∧
      (customResponse req code).request = some req ∧
      ∀ call, Event.invokeApp call ∉ (handle_request handlers app gunzip hostname req).1 := by
  have hint : (enterHandlers handlers 0).2.2 = some code :=
    enterHandlers_interrupted k handlers 0 code hk hbefore
  rcases hres : enterHandlers handlers 0 with ⟨enters, entered, interrupted⟩
  rw [hres] at hint
  simp only at hint
  subst hint
  have hnoinv : ∀ call, Event.invokeApp call ∉ enters := by
    intro call
    have := enterHandlers_no_invoke handlers 0 call
    rw [hres] at this
    exact this
  constructor
  · simp [handle_request, hres, hscheme]
  refine ⟨rfl, rfl, rfl, rfl, ?_⟩
  intro call
  have htr : (handle_request handlers app gunzip hostname req).1 =
      enters ++ exitEvents entered := by
    simp [handle_request, hres, hscheme]
  rw [htr]
  intro hmem
  rcases List.mem_append.mp hmem with h | h
  · exact hnoinv call h
  · exact exitEvents_no_invoke entered call h

/-- C2 witness: a chain whose only handler raises `CustomHTTPResponse(request,
403)`, checked on the spec's example URL. -/
theorem c2_witness :
    (urlScheme "http://example.com/api/widgets?x=1" ≠ "" ∧
      [HandlerSpec.custom 403][0]? = some (.custom 403)) ∧
      (handle_request [.custom 403] (.success ⟨200, [], []⟩) id "testhost"
          ⟨"http://example.com/api/widgets?x=1", "get", [], []⟩).2 =
        .ok (customResponse ⟨"http://example.com/api/widgets?x=1", "get", [], []⟩ 403) := by
  refine ⟨⟨by decide, rfl⟩, ?_⟩
  exact (c2_custom_response_short_circuit [.custom 403] (.success ⟨200, [], []⟩) id
    "testhost" ⟨"http://example.com/api/widgets?x=1", "get", [], []⟩ 0 403
    (by decide) rfl (fun j hj => absurd hj (Nat.not_lt_zero j))).1

/-! ## C3: scope exits on every termination path -/

/-- C3: on every termination path of `handle_request` — short-circuit,
normal return, and an application exception — the trace is the entered
scopes (each entered at most once, `Nodup`) followed by at most one
application invocation and then the exits of exactly the entered scopes in
reverse order of entry (`exitEvents`); and when the application collaborator
was invoked and raised, that exception propagates unchanged as the result. -/
theorem c3_scope_exit_discipline (handlers : List HandlerSpec)
    (app : AppOutcome) (gunzip : List Nat → List Nat) (hostname : String)
    (req : Request) (hscheme : urlScheme req.url ≠ "") :
    (∃ entered : List Nat, entered.Nodup ∧
      ((handle_request handlers app gunzip hostname req).1 =
          entered.map Event.enter ++ exitEvents entered ∨
        (handle_request handlers app gunzip hostname req).1 =
          entered.map Event.enter ++ [Event.invokeApp (buildAppCall hostname req)] ++
            exitEvents entered)) ∧
      ∀ e, app = .failure e →
        (∃ call, Event.invokeApp call ∈ (handle_request handlers app gunzip hostname req).1) →
        (handle_request handlers app gunzip hostname req).2 = .error (.appExn e) := by
  rcases hres : enterHandlers handlers 0 with ⟨enters, entered, interrupted⟩
  have hfst : enters = entered.map Event.enter := by
    have := enterHandlers_fst handlers 0
    rw [hres] at this
    exact this
  have hnd : entered.Nodup := by
    have := enterHandlers_entered_nodup handlers 0
    rw [hres] at this
    exact this
  cases interrupted with
  | some code =>
    refine ⟨⟨entered, hnd, Or.inl ?_⟩, ?_⟩
    · simp [handle_request, hres, hscheme, hfst]
    · intro e _ hinv
      obtain ⟨call, hcall⟩ := hinv
      have htr : (handle_request handlers app gunzip hostname req).1 =
          enters ++ exitEvents entered := by
        simp [handle_request, hres, hscheme]
      rw [htr] at hcall
      rcases List.mem_append.mp hcall with h | h
      · have := enterHandlers_no_invoke handlers 0 call
        rw [hres] at this
        exact absurd h this
      · exact absurd h (exitEvents_no_invoke entered call)
  | none =>
    cases app with
    | success resp =>
      refine ⟨⟨entered, hnd, Or.inr ?_⟩, ?_⟩
      · simp [handle_request, hres, hscheme, hfst]
      · intro e he
        exact absurd he (by simp)
    | failure e₀ =>
      refine ⟨⟨entered, hnd, Or.inr ?_⟩, ?_⟩
      · simp [handle_request, hres, hscheme, hfst]
      · intro e he _
        have : e₀ = e := by simpa using he
        subst this
        simp [handle_request, hres, hscheme]

/-- C3 witness: one scope-entering handler around a failing application:
the scope still exits and the exception propagates. -/
theorem c3_witness :
    (urlScheme "http://example.com/api/widgets?x=1" ≠ "") ∧
      (∃ entered : List Nat, entered.Nodup ∧
        ((handle_request [.scope] (.failure 7) id "testhost"
            ⟨"http://example.com/api/widgets?x=1", "get", [], []⟩).1 =
            entered.map Event.enter ++ exitEvents entered ∨
          (handle_request [.scope] (.failure 7) id "testhost"
            ⟨"http://example.com/api/widgets?x=1", "get", [], []⟩).1 =
            entered.map Event.enter ++
              [Event.invokeApp (buildAppCall "testhost"
                ⟨"http://example.com/api/widgets?x=1", "get", [], []⟩)] ++
              exitEvents entered)) ∧
        ∀ e, (AppOutcome.failure 7 : AppOutcome) = .failure e →
          (∃ call, Event.invokeApp call ∈ (handle_request [.scope] (.failure 7) id "testhost"
              ⟨"http://example.com/api/widgets?x=1", "get", [], []⟩).1) →
          (handle_request [.scope] (.failure 7) id "testhost"
            ⟨"http://example.com/api/widgets?x=1", "get", [], []⟩).2 = .error (.appExn e) := by
  exact ⟨by decide, c3_scope_exit_discipline [.scope] (.failure 7) id "testhost"
    ⟨"http://example.com/api/widgets?x=1", "get", [], []⟩ (by decide)⟩

/-! ## C5: activate/deactivate round trip -/

/-- C5: activating a not-currently-active well-formed address and then
deactivating it restores both the global registry and the handler's
active-address set exactly, and the deactivation raises nothing. -/
theorem c5_activate_deactivate_round_trip (s : LoopbackSystem) (addr : Address)
    (ssl : Bool) (hreg : s.registry addr = none) (hmem : addr ∉ s.selfAddresses) :
    deactivate_address (activate_address s addr ssl) addr = (s, none) := by
  obtain ⟨reg, sid, sa⟩ := s
  simp only at hreg hmem
  unfold deactivate_address activate_address unregister_loopback_handler
    register_loopback_handler
  simp only [if_neg hmem, if_pos rfl]
  simp only [List.mem_cons, true_or, if_true, List.erase_cons_head]
  have hfun : (fun a => if a = addr then none else
      if a = addr then some (sid, ssl) else reg a) = reg := by
    funext a
    by_cases h : a = addr
    · subst h
      simp [hreg]
    · simp [h]
  simp [hfun]

/-- C5 witness: the round trip on a concrete empty system. -/
theorem c5_witness :
    (emptySystem.registry someAddress = none ∧ someAddress ∉ emptySystem.selfAddresses) ∧
      deactivate_address (activate_address emptySystem someAddress false) someAddress =
        (emptySystem, none) :=
  ⟨⟨rfl, by simp [emptySystem]⟩,
    c5_activate_deactivate_round_trip emptySystem someAddress false rfl
      (by simp [emptySystem])⟩

/-! ## C6: `deactivate_all` -/

/-- Activate each address of `addrs` in turn on the handler, as N calls to
`activate_address`. -/
def activateAll (s : LoopbackSystem) (addrs : List Address) (ssl : Bool) : LoopbackSystem :=
  addrs.foldl (fun st a => activate_address st a ssl) s

theorem activateAll_spec :
    ∀ (addrs : List Address) (s : LoopbackSystem) (ssl : Bool),
      addrs.Nodup → (∀ a ∈ addrs, a ∉ s.selfAddresses) →
      (activateAll s addrs ssl).selfId = s.selfId ∧
        (activateAll s addrs ssl).selfAddresses = addrs.reverse ++ s.selfAddresses ∧
        ∀ a, (activateAll s addrs ssl).registry a =
          if a ∈ addrs then some (s.selfId, ssl) else s.registry a := by
  intro addrs
  induction addrs with
  | nil => intro s ssl _ _; simp [activateAll]
  | cons a rest ih =>
    intro s ssl hnd hdisj
    have hnota : a ∉ s.selfAddresses := hdisj a (List.mem_cons_self a rest)
    have hanotinrest : a ∉ rest := (List.nodup_cons.mp hnd).1
    have hstep : activateAll s (a :: rest) ssl =
        activateAll (activate_address s a ssl) rest ssl := rfl
    have hst1 : activate_address s a ssl =
        { registry := register_loopback_handler s.registry a s.selfId ssl
          selfId := s.selfId
          selfAddresses := a :: s.selfAddresses } := by
      unfold activate_address
      simp [if_neg hnota]
    obtain ⟨ihid, ihsa, ihreg⟩ := ih (activate_address s a ssl) ssl
      (List.nodup_cons.mp hnd).2
      (by
        intro b hb
        rw [hst1]
        simp only [List.mem_cons]
        push_neg
        exact ⟨fun hba => hanotinrest (hba ▸ hb), hdisj b (List.mem_cons_of_mem a hb)⟩)
    rw [hstep]
    refine ⟨by rw [ihid, hst1], ?_, ?_⟩
    · rw [ihsa, hst1]
      simp
    · intro b
      rw [ihreg b, hst1]
      simp only
      by_cases hbr : b ∈ rest
      · simp [hbr]
      · by_cases hba : b = a
        · subst hba
          simp [hbr, register_loopback_handler]
        · simp [hbr, hba, register_loopback_handler]

theorem deactivate_all_loop_spec :
    ∀ (l : List Address) (s : LoopbackSystem),
      s.selfAddresses = l → l.Nodup → (∀ a ∈ l, s.registry a ≠ none) →
      ∃ s', deactivate_all_loop s l = (s', none) ∧
        s'.selfAddresses = [] ∧ s'.selfId = s.selfId ∧
        ∀ a, s'.registry a = if a ∈ l then none else s.registry a := by
  intro l
  induction l with
  | nil =>
    intro s hsa _ _
    exact ⟨s, rfl, hsa, rfl, fun a => by simp⟩
  | cons a rest ih =>
    intro s hsa hnd hne
    obtain ⟨v, hv⟩ := Option.ne_none_iff_exists'.mp (hne a (List.mem_cons_self a rest))
    have hanotinrest : a ∉ rest := (List.nodup_cons.mp hnd).1
    have hda : deactivate_address s a =
        ({ registry := fun b => if b = a then none else s.registry b
           selfId := s.selfId
           selfAddresses := rest }, none) := by
      unfold deactivate_address unregister_loopback_handler
      simp only [hv]
      simp [hsa, List.erase_cons_head]
    obtain ⟨s', hloop, hsa', hid', hreg'⟩ := ih
      { registry := fun b => if b = a then none else s.registry b
        selfId := s.selfId
        selfAddresses := rest }
      rfl (List.nodup_cons.mp hnd).2
      (by
        intro b hb
        have hba : b ≠ a := fun h => hanotinrest (h ▸ hb)
        simp only [if_neg hba]
        exact hne b (List.mem_cons_of_mem a hb))
    refine ⟨s', ?_, hsa', hid', ?_⟩
    · simp [deactivate_all_loop, hda, hloop]
    · intro b
      rw [hreg' b]
      simp only
      by_cases hbr : b ∈ rest
      · simp [hbr]
      · by_cases hba : b = a
        · subst hba
          simp [hbr]
        · simp [hbr, hba]

/-- C6: activating N distinct addresses on a handler and then calling
`deactivate_all` raises nothing, leaves the handler with zero active
addresses, removes all N registrations from the global registry (leaving
other registrations untouched), and a second `deactivate_all` is a no-op
that raises nothing. -/
theorem c6_deactivate_all_clears (s : LoopbackSystem) (addrs : List Address)
    (ssl : Bool) (hnd : addrs.Nodup) (hempty : s.selfAddresses = []) :
    ∃ s', deactivate_all (activateAll s addrs ssl) = (s', none) ∧
      s'.selfAddresses = [] ∧
      (∀ a ∈ addrs, s'.registry a = none) ∧
      (∀ a, a ∉ addrs → s'.registry a = s.registry a) ∧
      deactivate_all s' = (s', none) := by
  obtain ⟨hid, hsa, hregs⟩ := activateAll_spec addrs s ssl hnd (by simp [hempty])
  have hsa' : (activateAll s addrs ssl).selfAddresses = addrs.reverse := by
    rw [hsa, hempty, List.append_nil]
  obtain ⟨s', hloop, hempty', hid', hreg'⟩ :=
    deactivate_all_loop_spec addrs.reverse (activateAll s addrs ssl) hsa'
      (List.nodup_reverse.mpr hnd)
      (by
        intro a ha
        rw [hregs a, if_pos (List.mem_reverse.mp ha)]
        simp)
  refine ⟨s', ?_, hempty', ?_, ?_, ?_⟩
  · rw [deactivate_all, hsa']
    exact hloop
  · intro a ha
    rw [hreg' a, if_pos (List.mem_reverse.mpr ha)]
  · intro a ha
    rw [hreg' a, if_neg (fun h => ha (List.mem_reverse.mp h)), hregs a, if_neg ha]
  · rw [deactivate_all, hempty']
    rfl

/-- C6 witness: two distinct addresses on a concrete empty system. -/
theorem c6_witness :
    ([⟨"a", 1⟩, ⟨"b", 2⟩] : List Address).Nodup ∧ emptySystem.selfAddresses = [] ∧
      ∃ s', deactivate_all (activateAll emptySystem [⟨"a", 1⟩, ⟨"b", 2⟩] true) = (s', none) ∧
        s'.selfAddresses = [] ∧
        (∀ a ∈ ([⟨"a", 1⟩, ⟨"b", 2⟩] : List Address), s'.registry a = none) ∧
        (∀ a, a ∉ ([⟨"a", 1⟩, ⟨"b", 2⟩] : List Address) →
          s'.registry a = emptySystem.registry a) ∧
        deactivate_all s' = (s', none) :=
  ⟨by decide, rfl,
    c6_deactivate_all_clears emptySystem [⟨"a", 1⟩, ⟨"b", 2⟩] true (by decide) rfl⟩

/-! ## C9: deactivating an inactive address raises -/

/-- C9: for a well-formed address not in the handler's active-address set,
`deactivate_address` raises (`NotRegistered` from the registry or `KeyError`
from `set.remove`) rather than silently succeeding. -/
theorem c9_deactivate_inactive_raises (s : LoopbackSystem) (addr : Address)
    (h : addr ∉ s.selfAddresses) :
    ∃ e, (deactivate_address s addr).2 = some e := by
  unfold deactivate_address unregister_loopback_handler
  cases hv : s.registry addr with
  | none => exact ⟨.notRegistered, rfl⟩
  | some v =>
    simp only
    rw [if_neg h]
    exact ⟨.keyError, rfl⟩

/-- C9 witness: deactivating on a concrete system that never activated. -/
theorem c9_witness :
    someAddress ∉ emptySystem.selfAddresses ∧
      ∃ e, (deactivate_address emptySystem someAddress).2 = some e :=
  ⟨by simp [emptySystem],
    c9_deactivate_inactive_raises emptySystem someAddress (by simp [emptySystem])⟩

/-! ## C10: double activation collapses -/

/-- C10: activating the same well-formed address twice records it only once
in the handler's active-address set, so one `deactivate_address` raises
nothing and leaves the address entirely inactive: absent from the set and
unregistered from dispatch. -/
theorem c10_double_activate_single_deactivate (s : LoopbackSystem)
    (addr : Address) (ssl₁ ssl₂ : Bool) (hnd : s.selfAddresses.Nodup) :
    (activate_address (activate_address s addr ssl₁) addr ssl₂).selfAddresses.count addr = 1 ∧
      ∃ s', deactivate_address (activate_address (activate_address s addr ssl₁) addr ssl₂)
          addr = (s', none) ∧
        addr ∉ s'.selfAddresses ∧ s'.registry addr = none := by
  set s₂ := activate_address (activate_address s addr ssl₁) addr ssl₂ with hs₂
  have hmem₂ : addr ∈ s₂.selfAddresses := by
    rw [hs₂]
    unfold activate_address
    by_cases h : addr ∈ s.selfAddresses <;> simp [h]
  have hsa₂ : s₂.selfAddresses =
      if addr ∈ s.selfAddresses then s.selfAddresses else addr :: s.selfAddresses := by
    rw [hs₂]
    unfold activate_address
    by_cases h : addr ∈ s.selfAddresses <;> simp [h]
  have hnd₂ : s₂.selfAddresses.Nodup := by
    rw [hsa₂]
    by_cases h : addr ∈ s.selfAddresses
    · simpa [h] using hnd
    · simp only [if_neg h]
      exact List.nodup_cons.mpr ⟨h, hnd⟩
  have hreg₂ : s₂.registry addr = some (s.selfId, ssl₂) := by
    rw [hs₂]
    unfold activate_address register_loopback_handler
    simp
  constructor
  · rw [hsa₂]
    by_cases h : addr ∈ s.selfAddresses
    · rw [if_pos h]
      exact List.count_eq_one_of_mem hnd h
    · rw [if_neg h]
      simp [List.count_cons, List.count_eq_zero_of_not_mem h]
  · refine ⟨{ registry := fun b => if b = addr then none else s₂.registry b
              selfId := s₂.selfId
              selfAddresses := s₂.selfAddresses.erase addr }, ?_, ?_, ?_⟩
    · unfold deactivate_address unregister_loopback_handler
      rw [hreg₂]
      simp only
      rw [if_pos hmem₂]
    · simp only
      intro hmem
      exact (List.Nodup.mem_erase_iff hnd₂ |>.mp hmem).1 rfl
    · simp

/-- C10 witness: double activation then one deactivation on a concrete
empty system. -/
theorem c10_witness :
    emptySystem.selfAddresses.Nodup ∧
      ((activate_address (activate_address emptySystem someAddress false) someAddress
          true).selfAddresses.count someAddress = 1 ∧
        ∃ s', deactivate_address (activate_address (activate_address emptySystem someAddress
            false) someAddress true) someAddress = (s', none) ∧
          someAddress ∉ s'.selfAddresses ∧ s'.registry someAddress = none) :=
  ⟨List.nodup_nil,
    c10_double_activate_single_deactivate emptySystem someAddress false true List.nodup_nil⟩

/-! ## C4: the `on` context manager -/

/-- C4 (counterexample): the claim that the scoped activation never raises
on exit even if the address was deactivated by other code during the scope
is false — a scope body that itself deactivates the address completes
normally, yet `on`'s exit raises. -/
theorem c4_counterexample :
    (onScope emptySystem someAddress false
        (fun s => deactivate_address s someAddress)).2 = some .notRegistered := rfl

/-- C4 (amended): `on` activates the address on entry and runs the scope
body on the activated state; whenever the address is still active (in the
set, with `Nodup` as for every Python set, and registered) when the body
finishes, the exit deactivates it without raising — on normal completion and
on a body exception alike, the body's outcome propagating unchanged — and
afterwards the address is in neither the active-address set nor the
registry.  (When other code deactivated the address during the scope, the
exit raises instead; see the counterexample.) -/
theorem c4_on_scoped_deactivation (s : LoopbackSystem) (addr : Address)
    (ssl : Bool) (body : LoopbackSystem → LoopbackSystem × Option PyErr)
    (hmem : addr ∈ (body (activate_address s addr ssl)).1.selfAddresses)
    (hnd : (body (activate_address s addr ssl)).1.selfAddresses.Nodup)
    (hreg : (body (activate_address s addr ssl)).1.registry addr ≠ none) :
    ∃ s', onScope s addr ssl body = (s', (body (activate_address s addr ssl)).2) ∧
      addr ∉ s'.selfAddresses ∧ s'.registry addr = none := by
  obtain ⟨v, hv⟩ := Option.ne_none_iff_exists'.mp hreg
  rcases hbody : body (activate_address s addr ssl) with ⟨s₂, bodyErr⟩
  rw [hbody] at hmem hnd hv
  simp only at hmem hnd hv ⊢
  have hda : deactivate_address s₂ addr =
      ({ registry := fun b => if b = addr then none else s₂.registry b
         selfId := s₂.selfId
         selfAddresses := s₂.selfAddresses.erase addr }, none) := by
    unfold deactivate_address unregister_loopback_handler
    rw [hv]
    simp only
    rw [if_pos hmem]
  refine ⟨{ registry := fun b => if b = addr then none else s₂.registry b
            selfId := s₂.selfId
            selfAddresses := s₂.selfAddresses.erase addr }, ?_, ?_, ?_⟩
  · unfold onScope
    simp only [hbody, hda]
  · simp only
    intro habs
    exact (List.Nodup.mem_erase_iff hnd |>.mp habs).1 rfl
  · simp

/-- C4 witness: a body that completes normally and leaves the address
active; the exit deactivates without raising. -/
theorem c4_witness :
    (someAddress ∈ (activate_address emptySystem someAddress false).selfAddresses ∧
      (activate_address emptySystem someAddress false).selfAddresses.Nodup ∧
      (activate_address emptySystem someAddress false).registry someAddress ≠ none) ∧
      ∃ s', onScope emptySystem someAddress false (fun s => (s, none)) = (s', none) ∧
        someAddress ∉ s'.selfAddresses ∧ s'.registry someAddress = none := by
  refine ⟨⟨by simp [activate_address, emptySystem], ?_, ?_⟩, ?_⟩
  · simp [activate_address, emptySystem]
  · simp [activate_address, emptySystem, register_loopback_handler]
  · have h := c4_on_scoped_deactivation emptySystem someAddress false (fun s => (s, none))
      (by simp [activate_address, emptySystem])
      (by simp [activate_address, emptySystem])
      (by simp [activate_address, emptySystem, register_loopback_handler])
    exact h

/-! ## C7: `content-encoding: gzip` -/

/-- C7: when the application response declares `content-encoding: gzip` and
its body decompresses (via the external `gzip_decompress` collaborator
`gunzip`) to `orig`, the translated response's `content` is `orig`; when the
header is not declared with value `gzip`, the body bytes pass through
unchanged. -/
theorem c7_gzip_decompression (gunzip : List Nat → List Nat) (req : Request)
    (resp : AppResponse) (orig : List Nat) (hdec : gunzip resp.body = orig) :
    (headersGet resp.headers "content-encoding" = some "gzip" →
      (translateResponse gunzip req resp).content = orig) ∧
    (headersGet resp.headers "content-encoding" ≠ some "gzip" →
      (translateResponse gunzip req resp).content = resp.body) := by
  constructor
  · intro h
    unfold translateResponse
    simp [h, hdec]
  · intro h
    unfold translateResponse
    simp [h]

/-- C7 witness: a concrete gzip-declared response (header name in mixed
case, matched case-insensitively) whose body "decompresses" under a sample
codec, and the same response without the declaration. -/
theorem c7_witness :
    ((fun l => List.drop 1 l) [9, 1, 2] = [1, 2]) ∧
      (headersGet [("Content-Encoding", "gzip")] "content-encoding" = some "gzip" →
        (translateResponse (fun l => List.drop 1 l)
            ⟨"http://h/a", "get", [], []⟩ ⟨200, [("Content-Encoding", "gzip")], [9, 1, 2]⟩).content =
          [1, 2]) ∧
      (headersGet [("Content-Encoding", "gzip")] "content-encoding" ≠ some "gzip" →
        (translateResponse (fun l => List.drop 1 l)
            ⟨"http://h/a", "get", [], []⟩ ⟨200, [("Content-Encoding", "gzip")], [9, 1, 2]⟩).content =
          [9, 1, 2]) := by
  refine ⟨rfl, ?_⟩
  exact c7_gzip_decompression (fun l => List.drop 1 l) ⟨"http://h/a", "get", [], []⟩
    ⟨200, [("Content-Encoding", "gzip")], [9, 1, 2]⟩ [1, 2] rfl

/-! ## C8: the `_IOReader` body stream -/

/-- C8: the translated response's raw body reader is present (non-null, a
reader over the content bytes); reading never raises; a read on a closed
reader returns the empty byte string with the reader untouched; a read that
returns the empty byte string leaves the reader marked closed; and a reader
over an empty body returns empty on its first read, is closed afterwards,
and a second read again returns empty without raising. -/
theorem c8_reader_semantics (size size₂ : Option Nat)
    (gunzip : List Nat → List Nat) (req : Request) (resp : AppResponse) :
    ((translateResponse gunzip req resp).raw =
        some (mkIOReader (translateResponse gunzip req resp).content)) ∧
      (∀ r : IOReader, ∃ out r', ioReaderRead r size = .ok (out, r')) ∧
      (∀ r : IOReader, r.closed = true → ioReaderRead r size = .ok ([], r)) ∧
      (∀ (r r' : IOReader) (out : List Nat),
        ioReaderRead r size = .ok (out, r') → out = [] → r'.closed = true) ∧
      (∃ r₁, ioReaderRead (mkIOReader []) size = .ok ([], r₁) ∧ r₁.closed = true ∧
        ioReaderRead r₁ size₂ = .ok ([], r₁)) := by
  have hclosed : ∀ (r : IOReader) (sz : Option Nat), r.closed = true →
      ioReaderRead r sz = .ok ([], r) := by
    intro r sz h
    unfold ioReaderRead
    rw [if_pos h]
  have hopen : ∀ r : IOReader, r.closed = false →
      ioReaderRead r size =
        (if bytesOut r size = [] then
          .ok (bytesOut r size,
            { r with pos := r.pos + (bytesOut r size).length, closed := true })
        else .ok (bytesOut r size, { r with pos := r.pos + (bytesOut r size).length })) := by
    intro r h
    have hb : bytesIORead r size =
        .ok (bytesOut r size, { r with pos := r.pos + (bytesOut r size).length }) := by
      unfold bytesIORead
      rw [if_neg (by rw [h]; exact Bool.false_ne_true)]
    unfold ioReaderRead
    rw [if_neg (by rw [h]; exact Bool.false_ne_true), hb]
  refine ⟨?_, ?_, fun r h => hclosed r size h, ?_, ?_⟩
  · unfold translateResponse
    simp
  · intro r
    cases h : r.closed with
    | true => exact ⟨[], r, hclosed r size h⟩
    | false =>
      rw [hopen r h]
      by_cases he : bytesOut r size = []
      · rw [if_pos he]
        exact ⟨_, _, rfl⟩
      · rw [if_neg he]
        exact ⟨_, _, rfl⟩
  · intro r r' out hread hout
    subst hout
    cases h : r.closed with
    | true =>
      rw [hclosed r size h] at hread
      simp only [Except.ok.injEq, Prod.mk.injEq] at hread
      rw [← hread.2]
      exact h
    | false =>
      rw [hopen r h] at hread
      by_cases he : bytesOut r size = []
      · rw [if_pos he] at hread
        simp only [Except.ok.injEq, Prod.mk.injEq] at hread
        rw [← hread.2]
      · rw [if_neg he] at hread
        simp only [Except.ok.injEq, Prod.mk.injEq] at hread
        exact absurd hread.1 he
  · refine ⟨{ data := [], pos := 0, closed := true }, ?_, rfl, ?_⟩
    · rw [hopen (mkIOReader []) rfl]
      have he : bytesOut (mkIOReader []) size = [] := by
        unfold bytesOut mkIOReader
        cases size <;> simp
      rw [if_pos he, he]
      rfl
    · exact hclosed _ size₂ rfl

/-- C8 witness: the reader laws evaluated at concrete sizes and a concrete
translated response. -/
theorem c8_witness :
    ((translateResponse id ⟨"http://h/a", "get", [], []⟩ ⟨200, [], []⟩).raw =
        some (mkIOReader (translateResponse id ⟨"http://h/a", "get", [], []⟩
          ⟨200, [], []⟩).content)) ∧
      (∀ r : IOReader, ∃ out r', ioReaderRead r none = .ok (out, r')) ∧
      (∀ r : IOReader, r.closed = true → ioReaderRead r none = .ok ([], r)) ∧
      (∀ (r r' : IOReader) (out : List Nat),
        ioReaderRead r none = .ok (out, r') → out = [] → r'.closed = true) ∧
      (∃ r₁, ioReaderRead (mkIOReader []) none = .ok ([], r₁) ∧ r₁.closed = true ∧
        ioReaderRead r₁ (some 4) = .ok ([], r₁)) :=
  c8_reader_semantics none (some 4) id ⟨"http://h/a", "get", [], []⟩ ⟨200, [], []⟩

end FlaskLoopback
